import Mathlib

/-
Verification of the Pivotier Blender addon.

This file gives a shallow embedding of the arithmetic and state-manipulating
core of the addon:

  * `get_base_center_world`   (src/set_pivot_to_base.py)
  * `set_pivot_to_base` / `set_pivot_to_cursor` as state transformers
  * `get_alignment_reference` / `batch_align_objects` (src/batch_operations.py)
  * `compute_alignment_data` / the tangent-frame construction of
    `align_cursor_to_normal` (src/align_cursor_to_normal.py)

Python floats are idealised as exact rationals (`ℚ`) where the code only
adds, multiplies, divides and compares, and as reals (`ℝ`) where square roots
appear (vector normalisation).  `mathutils.Vector` becomes the structure
`V3`, 3x3 rotation matrices become `M3`.  Blender objects are modelled by the
TRS components of their world matrix (`matrix_world = T(loc) * R * S`, which
is how Blender builds the matrix of an unparented object, and what
`Matrix.decompose` recovers), together with the data the addon reads:
bounding-box corners, mesh vertices, euler rotation, selection flag, and an
abstract `origin` field recording the pivot that `origin_set(ORIGIN_CURSOR)`
rewrites.
-/

namespace Pivotier

/-- Three-component vector, modelling `mathutils.Vector`. -/
@[ext]
structure V3 (α : Type) where
  x : α
  y : α
  z : α
deriving DecidableEq

namespace V3

variable {α : Type} [Field α]

instance : Zero (V3 α) := ⟨⟨0, 0, 0⟩⟩

instance : Add (V3 α) := ⟨fun a b => ⟨a.x + b.x, a.y + b.y, a.z + b.z⟩⟩

instance : Sub (V3 α) := ⟨fun a b => ⟨a.x - b.x, a.y - b.y, a.z - b.z⟩⟩

instance : Neg (V3 α) := ⟨fun a => ⟨-a.x, -a.y, -a.z⟩⟩

@[simp] theorem zero_x : (0 : V3 α).x = 0 := rfl

@[simp] theorem zero_y : (0 : V3 α).y = 0 := rfl

@[simp] theorem zero_z : (0 : V3 α).z = 0 := rfl

@[simp] theorem add_x (a b : V3 α) : (a + b).x = a.x + b.x := rfl

@[simp] theorem add_y (a b : V3 α) : (a + b).y = a.y + b.y := rfl

@[simp] theorem add_z (a b : V3 α) : (a + b).z = a.z + b.z := rfl

@[simp] theorem sub_x (a b : V3 α) : (a - b).x = a.x - b.x := rfl

@[simp] theorem sub_y (a b : V3 α) : (a - b).y = a.y - b.y := rfl

@[simp] theorem sub_z (a b : V3 α) : (a - b).z = a.z - b.z := rfl

instance : AddCommMonoid (V3 α) where
  add_assoc a b c := by ext <;> simp [add_assoc]
  zero_add a := by ext <;> simp
  add_zero a := by ext <;> simp
  add_comm a b := by ext <;> simp [add_comm]
  nsmul := nsmulRec

/-- Scalar multiplication `k * v` (mathutils `Vector * float`). -/
def smul (k : α) (v : V3 α) : V3 α := ⟨k * v.x, k * v.y, k * v.z⟩

@[simp] theorem smul_x (k : α) (v : V3 α) : (smul k v).x = k * v.x := rfl

@[simp] theorem smul_y (k : α) (v : V3 α) : (smul k v).y = k * v.y := rfl

@[simp] theorem smul_z (k : α) (v : V3 α) : (smul k v).z = k * v.z := rfl

/-- Division of a vector by a (natural) count, as in `center / len(base_verts)`. -/
def divN (v : V3 α) (n : ℕ) : V3 α := ⟨v.x / n, v.y / n, v.z / n⟩

/-- Dot product. -/
def dot (a b : V3 α) : α := a.x * b.x + a.y * b.y + a.z * b.z

/-- Cross product. -/
def cross (a b : V3 α) : V3 α :=
  ⟨a.y * b.z - a.z * b.y, a.z * b.x - a.x * b.z, a.x * b.y - a.y * b.x⟩

/-- Squared euclidean length. -/
def normSq (v : V3 α) : α := dot v v

/-- Componentwise product, modelling the application of
`mathutils.Matrix.Diagonal(scale.to_4d())` to a point. -/
def scaleApply (s v : V3 α) : V3 α := ⟨s.x * v.x, s.y * v.y, s.z * v.z⟩

end V3

/-- 3x3 matrix, stored by rows. -/
@[ext]
structure M3 (α : Type) where
  r0 : V3 α
  r1 : V3 α
  r2 : V3 α
deriving DecidableEq

namespace M3

variable {α : Type} [Field α]

/-- Matrix-vector product. -/
def mulVec (m : M3 α) (v : V3 α) : V3 α := ⟨V3.dot m.r0 v, V3.dot m.r1 v, V3.dot m.r2 v⟩

/-- Identity matrix. -/
def idM : M3 α := ⟨⟨1, 0, 0⟩, ⟨0, 1, 0⟩, ⟨0, 0, 1⟩⟩

theorem mulVec_idM (v : V3 α) : mulVec idM v = v := by
  ext <;> simp [mulVec, idM, V3.dot]

end M3

/-- Python's built-in `min` over a non-empty sequence of numbers; the `[]`
case is junk (Python raises `ValueError` there; every use below is on the 8
`bound_box` corners or on a vertex list guarded to be non-empty). -/
def pyMin (l : List ℚ) : ℚ :=
  match l with
  | [] => 0
  | x :: xs => xs.foldl min x

/-- Python's built-in `max`, same conventions as `pyMin`. -/
def pyMax (l : List ℚ) : ℚ :=
  match l with
  | [] => 0
  | x :: xs => xs.foldl max x

/-- Blender object kinds the addon distinguishes (`obj.type == 'MESH'`). -/
inductive ObjType
  | MESH
  | OTHER
deriving DecidableEq

/-- A Blender object, restricted to the data the addon reads and writes.
`loc`, `rotM`, `scale` are the TRS components of `matrix_world` (so
`matrix_world @ v = rotM (scale * v) + loc` and `matrix_world.decompose()`
returns exactly these components).  `origin` abstractly records the object's
pivot/origin state, the datum rewritten by
`bpy.ops.object.origin_set(type=ORIGIN_CURSOR)`. -/
structure Obj where
  id : ℕ
  typ : ObjType
  loc : V3 ℚ
  rotM : M3 ℚ
  scale : V3 ℚ
  rotation_euler : V3 ℚ
  verts : List (V3 ℚ)
  bound_box : List (V3 ℚ)
  select : Bool
  origin : V3 ℚ
deriving DecidableEq

/-- `obj.matrix_world @ v` for a point `v` (TRS application). -/
def matrixWorld (o : Obj) (v : V3 ℚ) : V3 ℚ :=
  o.rotM.mulVec (V3.scaleApply o.scale v) + o.loc

/-- `apply_rotation_matrix @ v` where
`apply_rotation_matrix = rot_matrix @ scale_matrix` is built in
`get_base_center_world` from the decomposition of `matrix_world`
(src/set_pivot_to_base.py lines 40-46). -/
def applyRotScale (o : Obj) (v : V3 ℚ) : V3 ℚ :=
  o.rotM.mulVec (V3.scaleApply o.scale v)

/-- The `base_verts` selection of `get_base_center_world`: all vertices whose
z-coordinate is within `tolerance = 0.0001` of the minimum z
(src/set_pivot_to_base.py lines 56-61 and 96-101). -/
def baseVertsOf (vs : List (V3 ℚ)) : List (V3 ℚ) :=
  let min_z := pyMin (vs.map V3.z)
  vs.filter (fun v => |v.z - min_z| < 1 / 10000)

/-- The accumulation loop `center = Vector((0,0,0)); for v in base_verts:
center += v; center = center / len(base_verts)`. -/
def meanOf (vs : List (V3 ℚ)) : V3 ℚ := V3.divN vs.sum vs.length

/-- Base center of a point cloud by the bounding-box method: midpoint in x
and y, minimum in z (src/set_pivot_to_base.py lines 74-85 and 116-127). -/
def bboxBaseCenter (pts : List (V3 ℚ)) : V3 ℚ :=
  ⟨(pyMin (pts.map V3.x) + pyMax (pts.map V3.x)) / 2,
   (pyMin (pts.map V3.y) + pyMax (pts.map V3.y)) / 2,
   pyMin (pts.map V3.z)⟩

/-- The vertex list the `use_geometry=True` branch works on: the mesh
vertices, transformed by `apply_rotation_matrix` when `ignore_rotation` is
set, in local coordinates otherwise. -/
def geometryVerts (o : Obj) (ignore_rotation : Bool) : List (V3 ℚ) :=
  if ignore_rotation then o.verts.map (applyRotScale o) else o.verts

/-- `get_base_center_world(obj, ignore_rotation, use_geometry)`
(src/set_pivot_to_base.py lines 27-130), with the same branch structure as
the Python source. -/
def get_base_center_world (o : Obj) (ignore_rotation use_geometry : Bool) : V3 ℚ :=
  if ignore_rotation then
    -- loc, rot, scale = obj.matrix_world.decompose(); in the TRS model the
    -- components are the stored fields, and apply_rotation_matrix = R @ S.
    let loc := o.loc
    if use_geometry then
      let verts_transformed := o.verts.map (applyRotScale o)
      let base_verts := baseVertsOf verts_transformed
      let center := meanOf base_verts
      loc + center
    else
      let bbox_transformed := o.bound_box.map (applyRotScale o)
      let center := bboxBaseCenter bbox_transformed
      loc + center
  else
    if use_geometry then
      let base_verts := baseVertsOf o.verts
      let center_local := meanOf base_verts
      matrixWorld o center_local
    else
      let base_center_local := bboxBaseCenter o.bound_box
      matrixWorld o base_center_local

/-! ## Batch operations (src/batch_operations.py) -/

/-- The `relative_to` enum of `BatchAlignmentSettings`. -/
inductive RelativeTo
  | ACTIVE
  | CURSOR
  | WORLD
  | AVERAGE
deriving DecidableEq

/-- The `align_mode` enum of `BatchAlignmentSettings`. -/
inductive AlignMode
  | LOCATION
  | ROTATION
  | BOTH
deriving DecidableEq

/-- `BatchAlignmentSettings` property group. -/
structure Settings where
  align_x : Bool
  align_y : Bool
  align_z : Bool
  relative_to : RelativeTo
  align_mode : AlignMode
deriving DecidableEq

/-- The scene state the addon reads and writes: all objects of
`bpy.data.objects` (with their selection flags), the id of the active object
(if any), and the 3D cursor's location and rotation. -/
structure Ctx where
  objects : List Obj
  active : Option ℕ
  cursorLoc : V3 ℚ
  cursorRot : V3 ℚ
deriving DecidableEq

/-- `context.selected_objects`: recomputed from the current flags on each
access. -/
def selectedObjects (c : Ctx) : List Obj := c.objects.filter (·.select)

/-- `context.active_object` as an `Option`. -/
def activeObject (c : Ctx) : Option Obj :=
  c.active.bind (fun i => c.objects.find? (fun o => o.id = i))

/-- `get_alignment_reference(context, settings)`
(src/batch_operations.py lines 58-98).  The `'ACTIVE'` branch reads
`context.active_object.location` without a `None` check; `none` models the
`AttributeError` raised when there is no active object. -/
def get_alignment_reference (c : Ctx) (s : Settings) : Option (V3 ℚ × V3 ℚ) :=
  match s.relative_to with
  | RelativeTo.ACTIVE =>
      (activeObject c).map (fun a => (a.loc, a.rotation_euler))
  | RelativeTo.CURSOR => some (c.cursorLoc, c.cursorRot)
  | RelativeTo.WORLD => some (0, 0)
  | RelativeTo.AVERAGE =>
      -- accumulation loop over context.selected_objects, lines 80-90
      let acc := (selectedObjects c).foldl
        (fun (a : V3 ℚ × V3 ℚ × ℕ) o =>
          if o.typ = ObjType.MESH then
            (a.1 + o.loc, a.2.1 + o.rotation_euler, a.2.2 + 1)
          else a)
        (0, 0, 0)
      if acc.2.2 > 0 then
        some (V3.divN acc.1 acc.2.2, V3.divN acc.2.1 acc.2.2)
      else
        some (acc.1, acc.2.1)

/-- The body of the alignment loop of `batch_align_objects`
(src/batch_operations.py lines 127-141), applied to one object. -/
def alignObj (s : Settings) (ref : V3 ℚ × V3 ℚ) (o : Obj) : Obj :=
  let o1 :=
    if s.align_mode = AlignMode.LOCATION ∨ s.align_mode = AlignMode.BOTH then
      { o with loc :=
          ⟨if s.align_x then ref.1.x else o.loc.x,
           if s.align_y then ref.1.y else o.loc.y,
           if s.align_z then ref.1.z else o.loc.z⟩ }
    else o
  if s.align_mode = AlignMode.ROTATION ∨ s.align_mode = AlignMode.BOTH then
    { o1 with rotation_euler :=
        ⟨if s.align_x then ref.2.x else o1.rotation_euler.x,
         if s.align_y then ref.2.y else o1.rotation_euler.y,
         if s.align_z then ref.2.z else o1.rotation_euler.z⟩ }
  else o1

/-- Result of `batch_align_objects`: the returned error (if any), the scene
objects after the call, and how many undo steps were pushed.  The source
pushes its undo step before the mutation loop; the embedding sequences the
push the same way, so `undoPushes = 0` together with unchanged objects
captures "returns before pushing an undo step and before modifying any
object". -/
structure BatchResult where
  error : Option String
  objects : List Obj
  undoPushes : ℕ
deriving DecidableEq

/-- `batch_align_objects(context, settings)`
(src/batch_operations.py lines 100-143).  The Python loop mutates each
member of `context.selected_objects` in place; the embedding maps over all
objects, rewriting exactly the selected ones (each object occurs once in the
scene list).  The guard at line 113 makes the `none` case of
`get_alignment_reference` unreachable, so the reference is unwrapped with a
junk default. -/
def batch_align_objects (c : Ctx) (s : Settings) : BatchResult :=
  if (selectedObjects c).length < 1 then
    ⟨some "No objects selected", c.objects, 0⟩
  else if s.relative_to = RelativeTo.ACTIVE ∧ activeObject c = none then
    ⟨some "No active object selected", c.objects, 0⟩
  else
    let ref := (get_alignment_reference c s).getD (0, 0)
    -- bpy.ops.ed.undo_push(message="Batch Align Objects")
    let objects := c.objects.map (fun o =>
      if o.select ∧ ¬(s.relative_to = RelativeTo.ACTIVE ∧ c.active = some o.id) then
        alignObj s ref o
      else o)
    ⟨none, objects, 1⟩

/-! ## Pivot setting as a state transformer
(src/set_pivot_to_base.py lines 132-200, src/set_pivot_to_cursor.py
lines 80-139) -/

/-- The per-object effect of `obj.select_set(b)` targeted at id `i`. -/
def selUpd (i : ℕ) (b : Bool) (o : Obj) : Obj :=
  if o.id = i then { o with select := b } else o

/-- `obj.select_set(b)` for the object with the given id. -/
def setSelect (objs : List Obj) (i : ℕ) (b : Bool) : List Obj :=
  objs.map (selUpd i b)

/-- The per-object effect of `select_all(action=DESELECT)`. -/
def deselUpd (o : Obj) : Obj := { o with select := false }

/-- `bpy.ops.object.select_all(action=DESELECT)`. -/
def deselectAll (objs : List Obj) : List Obj := objs.map deselUpd

/-- The per-object effect of `origin_set(type=ORIGIN_CURSOR)` with the
cursor at `L`: a selected object's origin becomes `L`. -/
def originUpd (L : V3 ℚ) (o : Obj) : Obj :=
  if o.select then { o with origin := L } else o

/-- `bpy.ops.object.origin_set(type=ORIGIN_CURSOR)`: rewrites the origin of
every selected object to the cursor location. -/
def originSetCursor (st : Ctx) : Ctx :=
  { st with objects := st.objects.map (originUpd st.cursorLoc) }

/-- The per-object effect of the selection-restore loop: put back the flag
saved for this object's id, if one was saved. -/
def restUpd (saved : List (ℕ × Bool)) (o : Obj) : Obj :=
  match saved.lookup o.id with
  | some b => { o with select := b }
  | none => o

/-- The restore loop `for obj, was_selected in selection_states.items():
obj.select_set(was_selected)`.  `selection_states` is a dict keyed by the
objects themselves, so each object's flag is written back exactly once; the
net effect is this lookup-driven map. -/
def restoreSel (objs : List Obj) (saved : List (ℕ × Bool)) : List Obj :=
  objs.map (restUpd saved)

/-- One iteration of the processing loop of `set_pivot_to_base`
(src/set_pivot_to_base.py lines 162-185): skip non-meshes, select the object
and make it active, move the cursor to its base center (resetting or copying
the object's euler rotation), set the origin to the cursor, deselect. -/
def pivotBaseStep (ignore_rotation use_geometry : Bool) (st : Ctx) (i : ℕ) : Ctx :=
  match st.objects.find? (fun o => o.id = i) with
  | none => st
  | some o =>
    if o.typ ≠ ObjType.MESH then st
    else
      let st1 := { st with objects := setSelect st.objects i true, active := some i }
      let base_center := get_base_center_world o ignore_rotation use_geometry
      let st2 := { st1 with
          cursorLoc := base_center,
          cursorRot := if ignore_rotation then ⟨0, 0, 0⟩ else o.rotation_euler }
      let st3 := originSetCursor st2
      { st3 with objects := setSelect st3.objects i false }

/-- `set_pivot_to_base(objects, ignore_rotation, use_geometry)`
(src/set_pivot_to_base.py lines 132-200) run on a scene state.  `objIds`
are the ids of the `objects` argument.  The parameter `k` models an
exception interrupting the loop after `k` iterations (`k ≥ objIds.length`
is the exception-free run): the `finally` block runs in either case, so the
post-state is the same shape.  The `finally` restores cursor location and
rotation, every saved selection flag, and — only when one existed — the
active object (`if active_obj:` at line 197). -/
def set_pivot_to_base_run (objIds : List ℕ) (ignore_rotation use_geometry : Bool)
    (k : ℕ) (st : Ctx) : Ctx :=
  if objIds = [] then st   -- returns "No objects selected" before any mutation
  else
    let savedLoc := st.cursorLoc
    let savedRot := st.cursorRot
    let savedActive := st.active
    let savedSel := st.objects.map (fun o => (o.id, o.select))
    let st1 := { st with objects := deselectAll st.objects }
    let st2 := (objIds.take k).foldl (pivotBaseStep ignore_rotation use_geometry) st1
    { st2 with
        cursorLoc := savedLoc,
        cursorRot := savedRot,
        objects := restoreSel st2.objects savedSel,
        active := if savedActive ≠ none then savedActive else st2.active }

/-- One iteration of the processing loop of `set_pivot_to_cursor`
(src/set_pivot_to_cursor.py lines 108-121): skip non-meshes, select the
object and make it active, set its origin to the cursor, deselect. -/
def pivotCursorStep (st : Ctx) (i : ℕ) : Ctx :=
  match st.objects.find? (fun o => o.id = i) with
  | none => st
  | some o =>
    if o.typ ≠ ObjType.MESH then st
    else
      let st1 := { st with objects := setSelect st.objects i true, active := some i }
      let st2 := originSetCursor st1
      { st2 with objects := setSelect st2.objects i false }

/-- `set_pivot_to_cursor(context)` (src/set_pivot_to_cursor.py lines
80-139) run on a scene state.  The loop header
`for obj in context.selected_objects:` re-evaluates `selected_objects`
after `select_all(action=DESELECT)` has already run, so the iterated list
is empty and the loop body never executes; the embedding keeps that
behaviour.  `k` models an exception after `k` iterations as in
`set_pivot_to_base_run`. -/
def set_pivot_to_cursor_run (k : ℕ) (st : Ctx) : Ctx :=
  if selectedObjects st = [] then st   -- returns "No objects selected"
  else
    let savedLoc := st.cursorLoc
    let savedRot := st.cursorRot
    let savedActive := st.active
    let savedSel := st.objects.map (fun o => (o.id, o.select))
    let st1 := { st with objects := deselectAll st.objects }
    -- context.selected_objects, read after the deselect: empty
    let loopIds := (selectedObjects st1).map (·.id)
    let st2 := (loopIds.take k).foldl pivotCursorStep st1
    { st2 with
        cursorLoc := savedLoc,
        cursorRot := savedRot,
        objects := restoreSel st2.objects savedSel,
        active := if savedActive ≠ none then savedActive else st2.active }

/-! ## Align cursor to normal (src/align_cursor_to_normal.py)

Vector normalisation divides by a euclidean length, so this module is
modelled over `ℝ`. -/

noncomputable section

/-- `mathutils.Vector.normalized()`: the zero vector stays the zero vector,
any other vector is scaled to unit length. -/
def normalized (v : V3 ℝ) : V3 ℝ :=
  if V3.normSq v = 0 then ⟨0, 0, 0⟩
  else V3.smul (1 / Real.sqrt (V3.normSq v)) v

/-- `mathutils.Vector.lerp(other, factor)`. -/
def lerp (a b : V3 ℝ) (t : ℝ) : V3 ℝ := a + V3.smul t (b - a)

/-- A BMesh vertex: identity, coordinates, vertex normal, selection flag. -/
structure BMVert where
  id : ℕ
  co : V3 ℝ
  normal : V3 ℝ
  select : Bool

/-- A BMesh edge, by the ids of its two vertices. -/
structure BMEdge where
  v0 : ℕ
  v1 : ℕ
  select : Bool

/-- A BMesh face: the ids of its vertices (in loop order) and its normal. -/
structure BMFace where
  vs : List ℕ
  normal : V3 ℝ
  select : Bool

/-- A BMesh.  Vertex ids are assumed unique; faces and edges refer to
vertices by id. -/
structure BMesh where
  verts : List BMVert
  edges : List BMEdge
  faces : List BMFace

/-- Resolve a vertex id to its record (junk default for a dangling id,
which a well-formed BMesh does not contain). -/
def findVert (bm : BMesh) (i : ℕ) : BMVert :=
  (bm.verts.find? (fun v => v.id = i)).getD ⟨i, 0, 0, false⟩

/-- `verts.update(new)` on a Python set of vertices, represented as a
duplicate-free list of ids in insertion order.  Python's set iterates in an
unspecified order; every fold below is commutative, so insertion order is an
adequate representative. -/
def pyUpdate (acc : List ℕ) (new : List ℕ) : List ℕ :=
  new.foldl (fun a i => if i ∈ a then a else a ++ [i]) acc

/-- The three selection lists of `get_selection_data(bm)`
(src/align_cursor_to_normal.py lines 13-24). -/
def get_selection_data (bm : BMesh) : List BMFace × List BMEdge × List BMVert :=
  (bm.faces.filter (·.select), bm.edges.filter (·.select), bm.verts.filter (·.select))

/-- `sum((v.co for v in verts), mathutils.Vector()) / len(verts)` over a
list of vertex ids. -/
def meanCo (bm : BMesh) (ids : List ℕ) : V3 ℝ :=
  V3.divN ((ids.map (fun i => (findVert bm i).co)).sum) ids.length

/-- The face branch of `compute_alignment_data`
(src/align_cursor_to_normal.py lines 38-53). -/
def faceAlignment (bm : BMesh) (sel_faces : List BMFace) (f0 : BMFace) :
    V3 ℝ × V3 ℝ × V3 ℝ :=
  let vertIds := sel_faces.foldl (fun a f => pyUpdate a f.vs) []
  let location := meanCo bm vertIds
  let normal := normalized ((sel_faces.map (·.normal)).sum)
  -- (sel_faces[0].verts[1].co - sel_faces[0].verts[0].co).normalized()
  let tangent := normalized
    ((findVert bm (f0.vs.getD 1 0)).co - (findVert bm (f0.vs.getD 0 0)).co)
  (normal, location, tangent)

/-- The edge branch of `compute_alignment_data`
(src/align_cursor_to_normal.py lines 55-73). -/
def edgeAlignment (bm : BMesh) (sel_edges : List BMEdge) : V3 ℝ × V3 ℝ × V3 ℝ :=
  let vertIds := sel_edges.foldl (fun a e => pyUpdate a [e.v0, e.v1]) []
  let location := meanCo bm vertIds
  let normal := normalized
    ((sel_edges.map (fun e =>
        lerp (findVert bm e.v0).normal (findVert bm e.v1).normal (1 / 2))).sum)
  let tangent := normalized
    ((sel_edges.map (fun e => (findVert bm e.v1).co - (findVert bm e.v0).co)).sum)
  (normal, location, tangent)

/-- The vertex branch of `compute_alignment_data`
(src/align_cursor_to_normal.py lines 75-90). -/
def vertAlignment (bm : BMesh) (sel_verts : List BMVert) (v0 : BMVert) :
    V3 ℝ × V3 ℝ × V3 ℝ :=
  let location := V3.divN ((sel_verts.map (·.co)).sum) sel_verts.length
  let normal := normalized ((sel_verts.map (·.normal)).sum)
  -- vert.link_edges: the edges of the mesh incident to sel_verts[0]
  let linked := bm.edges.filter (fun e => e.v0 = v0.id ∨ e.v1 = v0.id)
  let tangent :=
    match linked with
    | e :: _ => normalized ((findVert bm e.v1).co - (findVert bm e.v0).co)
    | [] => ⟨1, 0, 0⟩
  (normal, location, tangent)

/-- `compute_alignment_data(bm)` (src/align_cursor_to_normal.py lines
26-92), returning `(normal, location, tangent)`, or `none` when no face,
edge or vertex is selected. -/
def compute_alignment_data (bm : BMesh) : Option (V3 ℝ × V3 ℝ × V3 ℝ) :=
  let sel := get_selection_data bm
  match sel.1, sel.2.1, sel.2.2 with
  | f0 :: fs, _, _ => some (faceAlignment bm (f0 :: fs) f0)
  | [], e0 :: es, _ => some (edgeAlignment bm (e0 :: es))
  | [], [], v0 :: vs => some (vertAlignment bm (v0 :: vs) v0)
  | [], [], [] => none

/-- The tangent fallback of `align_cursor_to_normal`
(src/align_cursor_to_normal.py lines 113-117). -/
def fixTangent (n t : V3 ℝ) : V3 ℝ :=
  if |V3.dot n t| > 0.99 then
    if |V3.dot n ⟨1, 0, 0⟩| > 0.99 then ⟨0, 1, 0⟩ else ⟨1, 0, 0⟩
  else t

/-- The frame construction of `align_cursor_to_normal`
(src/align_cursor_to_normal.py lines 120-121): returns the recomputed
tangent and the binormal. -/
def buildFrame (n t : V3 ℝ) : V3 ℝ × V3 ℝ :=
  let binormal := normalized (V3.cross n t)
  let tangent := normalized (V3.cross binormal n)
  (tangent, binormal)

/-- `t`, `b`, `n` form a right-handed orthonormal frame: all three are unit
vectors, pairwise orthogonal, and `t x b = n` (equivalently, the matrix with
columns `t`, `b`, `n` is a rotation matrix). -/
def IsRHOrthonormalFrame (t b n : V3 ℝ) : Prop :=
  V3.dot t t = 1 ∧ V3.dot b b = 1 ∧ V3.dot n n = 1 ∧
  V3.dot t b = 0 ∧ V3.dot t n = 0 ∧ V3.dot b n = 0 ∧
  V3.cross t b = n

/-- Mean of the coordinates of a `Finset` of vertex ids. -/
def finsetMean (bm : BMesh) (s : Finset ℕ) : V3 ℝ :=
  V3.divN (s.sum (fun i => (findVert bm i).co)) s.card

/-- The location the claim about `compute_alignment_data` describes: with
priority faces, then edges, then vertices, the arithmetic mean of the
coordinates of the *distinct* vertices belonging to the selected elements of
the chosen kind, the set of distinct vertices being taken as a `Finset` of
vertex ids; `none` exactly when nothing is selected. -/
def claimedLocation (bm : BMesh) : Option (V3 ℝ) :=
  let sel := get_selection_data bm
  match sel.1, sel.2.1, sel.2.2 with
  | fs@(_ :: _), _, _ =>
      some (finsetMean bm ((fs.flatMap (·.vs)).toFinset))
  | [], es@(_ :: _), _ =>
      some (finsetMean bm ((es.flatMap (fun e => [e.v0, e.v1])).toFinset))
  | [], [], vs@(_ :: _) =>
      some (V3.divN ((vs.map (·.co)).sum) vs.length)
  | [], [], [] => none

end

/-- The per-object update the batch-alignment claim describes: an object
that is not selected, or that is the active object while aligning relative
to it, is untouched; otherwise exactly the location components (in LOCATION
or BOTH mode) and euler-rotation components (in ROTATION or BOTH mode) of
the enabled axes are replaced by the reference values. -/
def claimedUpdate (c : Ctx) (s : Settings) (o : Obj) : Obj :=
  if o.select = false ∨ (s.relative_to = RelativeTo.ACTIVE ∧ c.active = some o.id) then o
  else
    let ref := (get_alignment_reference c s).getD (0, 0)
    let locOn := s.align_mode = AlignMode.LOCATION ∨ s.align_mode = AlignMode.BOTH
    let rotOn := s.align_mode = AlignMode.ROTATION ∨ s.align_mode = AlignMode.BOTH
    { o with
      loc := ⟨if locOn ∧ s.align_x then ref.1.x else o.loc.x,
              if locOn ∧ s.align_y then ref.1.y else o.loc.y,
              if locOn ∧ s.align_z then ref.1.z else o.loc.z⟩,
      rotation_euler :=
        ⟨if rotOn ∧ s.align_x then ref.2.x else o.rotation_euler.x,
         if rotOn ∧ s.align_y then ref.2.y else o.rotation_euler.y,
         if rotOn ∧ s.align_z then ref.2.z else o.rotation_euler.z⟩ }

/-- Every field of an object except its selection flag and its origin:
exactly the data that `set_pivot_to_base` / `set_pivot_to_cursor` never
touch on any object. -/
def Obj.core (o : Obj) :
    ℕ × ObjType × V3 ℚ × M3 ℚ × V3 ℚ × V3 ℚ × List (V3 ℚ) × List (V3 ℚ) :=
  (o.id, o.typ, o.loc, o.rotM, o.scale, o.rotation_euler, o.verts, o.bound_box)

/-- The frame-effect the pivot claims describe, `active` clause excluded
(it is stated separately): after the call the cursor location and rotation
are back to their initial values, every object's non-`origin` fields and its
selection flag are unchanged, and the `origin` of an object that was not
processed (not in the processed id list, or not a mesh) is unchanged. -/
def StateRestored (st st' : Ctx) (processed : List ℕ) : Prop :=
  st'.cursorLoc = st.cursorLoc ∧ st'.cursorRot = st.cursorRot ∧
  st'.objects.map Obj.core = st.objects.map Obj.core ∧
  st'.objects.map Obj.select = st.objects.map Obj.select ∧
  ∀ (n : ℕ) (o o' : Obj), st.objects[n]? = some o → st'.objects[n]? = some o' →
    (o.id ∉ processed ∨ o.typ ≠ ObjType.MESH) → o'.origin = o.origin

/-! ## Sample inputs for witnesses -/

/-- A concrete mesh object: a unit cube sitting on the origin. -/
def sampleObj : Obj :=
  { id := 0, typ := ObjType.MESH,
    loc := ⟨5, 6, 7⟩, rotM := M3.idM, scale := ⟨1, 1, 1⟩,
    rotation_euler := ⟨0, 0, 0⟩,
    verts := [⟨0, 0, 0⟩, ⟨1, 0, 0⟩, ⟨0, 1, 0⟩, ⟨1, 1, 0⟩,
              ⟨0, 0, 1⟩, ⟨1, 0, 1⟩, ⟨0, 1, 1⟩, ⟨1, 1, 1⟩],
    bound_box := [⟨0, 0, 0⟩, ⟨0, 0, 1⟩, ⟨0, 1, 1⟩, ⟨0, 1, 0⟩,
                  ⟨1, 0, 0⟩, ⟨1, 0, 1⟩, ⟨1, 1, 1⟩, ⟨1, 1, 0⟩],
    select := true, origin := ⟨0, 0, 0⟩ }

/-- A second object, not selected and not a mesh. -/
def sampleObjB : Obj :=
  { id := 1, typ := ObjType.OTHER,
    loc := ⟨1, 2, 3⟩, rotM := M3.idM, scale := ⟨1, 1, 1⟩,
    rotation_euler := ⟨1, 0, 0⟩,
    verts := [], bound_box := [],
    select := false, origin := ⟨0, 0, 0⟩ }

/-- A concrete scene: the cube (selected, active) and the extra object. -/
def sampleCtx : Ctx :=
  { objects := [sampleObj, sampleObjB], active := some 0,
    cursorLoc := ⟨9, 9, 9⟩, cursorRot := ⟨0, 1, 0⟩ }

/-- The same scene with no active object. -/
def sampleCtxNoActive : Ctx :=
  { objects := [sampleObj, sampleObjB], active := none,
    cursorLoc := ⟨9, 9, 9⟩, cursorRot := ⟨0, 1, 0⟩ }

/-- An empty scene. -/
def emptyCtx : Ctx :=
  { objects := [], active := none, cursorLoc := 0, cursorRot := 0 }

/-- Concrete batch settings: align everything to the cursor. -/
def sampleSettings : Settings :=
  { align_x := true, align_y := false, align_z := true,
    relative_to := RelativeTo.CURSOR, align_mode := AlignMode.BOTH }

/-- Concrete batch settings relative to the active object. -/
def sampleSettingsActive : Settings :=
  { align_x := true, align_y := true, align_z := true,
    relative_to := RelativeTo.ACTIVE, align_mode := AlignMode.LOCATION }

/-- Concrete batch settings averaging the selection. -/
def sampleSettingsAverage : Settings :=
  { align_x := true, align_y := true, align_z := true,
    relative_to := RelativeTo.AVERAGE, align_mode := AlignMode.BOTH }

/-- A concrete selected BMesh vertex. -/
noncomputable def sampleBMVert : BMVert :=
  { id := 0, co := ⟨1, 2, 3⟩, normal := ⟨0, 0, 1⟩, select := true }

/-- A concrete one-vertex BMesh with its vertex selected. -/
noncomputable def sampleBM : BMesh :=
  { verts := [sampleBMVert], edges := [], faces := [] }

/-! ## Helper lemmas -/

theorem foldl_min_mem (xs : List ℚ) : ∀ x : ℚ, xs.foldl min x ∈ x :: xs := by
  induction xs with
  | nil => intro x; simp
  | cons y ys ih =>
    intro x
    have h := ih (min x y)
    simp only [List.foldl_cons]
    rcases List.mem_cons.mp h with h1 | h2
    · rcases min_choice x y with hc | hc
      · rw [h1, hc]; exact List.mem_cons_self _ _
      · rw [h1, hc]; exact List.mem_cons_of_mem _ (List.mem_cons_self _ _)
    · exact List.mem_cons_of_mem _ (List.mem_cons_of_mem _ h2)

theorem foldl_min_le (xs : List ℚ) :
    ∀ x : ℚ, xs.foldl min x ≤ x ∧ ∀ a ∈ xs, xs.foldl min x ≤ a := by
  induction xs with
  | nil => intro x; exact ⟨le_refl x, by simp⟩
  | cons y ys ih =>
    intro x
    obtain ⟨h1, h2⟩ := ih (min x y)
    simp only [List.foldl_cons]
    refine ⟨le_trans h1 (min_le_left x y), ?_⟩
    intro a ha
    rcases List.mem_cons.mp ha with rfl | ha'
    · exact le_trans h1 (min_le_right x a)
    · exact h2 a ha'

theorem foldl_max_mem (xs : List ℚ) : ∀ x : ℚ, xs.foldl max x ∈ x :: xs := by
  induction xs with
  | nil => intro x; simp
  | cons y ys ih =>
    intro x
    have h := ih (max x y)
    simp only [List.foldl_cons]
    rcases List.mem_cons.mp h with h1 | h2
    · rcases max_choice x y with hc | hc
      · rw [h1, hc]; exact List.mem_cons_self _ _
      · rw [h1, hc]; exact List.mem_cons_of_mem _ (List.mem_cons_self _ _)
    · exact List.mem_cons_of_mem _ (List.mem_cons_of_mem _ h2)

theorem foldl_max_ge (xs : List ℚ) :
    ∀ x : ℚ, x ≤ xs.foldl max x ∧ ∀ a ∈ xs, a ≤ xs.foldl max x := by
  induction xs with
  | nil => intro x; exact ⟨le_refl x, by simp⟩
  | cons y ys ih =>
    intro x
    obtain ⟨h1, h2⟩ := ih (max x y)
    simp only [List.foldl_cons]
    refine ⟨le_trans (le_max_left x y) h1, ?_⟩
    intro a ha
    rcases List.mem_cons.mp ha with rfl | ha'
    · exact le_trans (le_max_right x a) h1
    · exact h2 a ha'

/-- `pyMin` of a non-empty list is its least element. -/
theorem pyMin_isLeast (l : List ℚ) (h : l ≠ []) : IsLeast {a | a ∈ l} (pyMin l) := by
  cases l with
  | nil => exact absurd rfl h
  | cons x xs =>
    constructor
    · exact foldl_min_mem xs x
    · intro a ha
      rcases List.mem_cons.mp ha with rfl | ha'
      · exact (foldl_min_le xs a).1
      · exact (foldl_min_le xs x).2 a ha'

/-- `pyMax` of a non-empty list is its greatest element. -/
theorem pyMax_isGreatest (l : List ℚ) (h : l ≠ []) : IsGreatest {a | a ∈ l} (pyMax l) := by
  cases l with
  | nil => exact absurd rfl h
  | cons x xs =>
    constructor
    · exact foldl_max_mem xs x
    · intro a ha
      rcases List.mem_cons.mp ha with rfl | ha'
      · exact (foldl_max_ge xs a).1
      · exact (foldl_max_ge xs x).2 a ha'

/-- A vertex attaining the minimum z passes the tolerance filter, so
`base_verts` is non-empty whenever the vertex list is. -/
theorem baseVertsOf_ne_nil (vs : List (V3 ℚ)) (h : vs ≠ []) : baseVertsOf vs ≠ [] := by
  have hmap : vs.map V3.z ≠ [] := by simpa using h
  have hmem := (pyMin_isLeast _ hmap).1
  obtain ⟨v, hv, hvz⟩ := List.mem_map.mp hmem
  intro hnil
  have hvin : v ∈ baseVertsOf vs := by
    unfold baseVertsOf
    simp only [List.mem_filter, decide_eq_true_eq]
    refine ⟨hv, ?_⟩
    rw [hvz, sub_self, abs_zero]
    norm_num
  rw [hnil] at hvin
  exact List.not_mem_nil v hvin

/-! ## Claims C1, C2, C3, C9 -/

/-- C1: for every mesh object, `get_base_center_world` with
`ignore_rotation=False` and `use_geometry=False` returns `obj.matrix_world`
applied to the local point whose x is the midpoint of the minimum and
maximum x over the 8 `bound_box` corners, whose y is the midpoint of the
minimum and maximum y, and whose z is the minimum z over those corners. -/
theorem C1_base_center_plain (o : Obj) (h : o.bound_box.length = 8) :
    ∃ mx Mx my My mz : ℚ,
      IsLeast {a | a ∈ o.bound_box.map V3.x} mx ∧
      IsGreatest {a | a ∈ o.bound_box.map V3.x} Mx ∧
      IsLeast {a | a ∈ o.bound_box.map V3.y} my ∧
      IsGreatest {a | a ∈ o.bound_box.map V3.y} My ∧
      IsLeast {a | a ∈ o.bound_box.map V3.z} mz ∧
      get_base_center_world o false false =
        matrixWorld o ⟨(mx + Mx) / 2, (my + My) / 2, mz⟩ := by
  have hne : o.bound_box ≠ [] := by
    intro hn; rw [hn] at h; exact absurd h (by norm_num)
  have hx : o.bound_box.map V3.x ≠ [] := by simpa using hne
  have hy : o.bound_box.map V3.y ≠ [] := by simpa using hne
  have hz : o.bound_box.map V3.z ≠ [] := by simpa using hne
  exact ⟨pyMin (o.bound_box.map V3.x), pyMax (o.bound_box.map V3.x),
         pyMin (o.bound_box.map V3.y), pyMax (o.bound_box.map V3.y),
         pyMin (o.bound_box.map V3.z),
         pyMin_isLeast _ hx, pyMax_isGreatest _ hx,
         pyMin_isLeast _ hy, pyMax_isGreatest _ hy,
         pyMin_isLeast _ hz, rfl⟩

/-- Witness for C1 at the sample cube. -/
theorem C1_base_center_plain_witness :
    sampleObj.bound_box.length = 8 ∧
    ∃ mx Mx my My mz : ℚ,
      IsLeast {a | a ∈ sampleObj.bound_box.map V3.x} mx ∧
      IsGreatest {a | a ∈ sampleObj.bound_box.map V3.x} Mx ∧
      IsLeast {a | a ∈ sampleObj.bound_box.map V3.y} my ∧
      IsGreatest {a | a ∈ sampleObj.bound_box.map V3.y} My ∧
      IsLeast {a | a ∈ sampleObj.bound_box.map V3.z} mz ∧
      get_base_center_world sampleObj false false =
        matrixWorld sampleObj ⟨(mx + Mx) / 2, (my + My) / 2, mz⟩ :=
  ⟨by decide, C1_base_center_plain sampleObj (by decide)⟩

/-- C2: with `ignore_rotation=True`, `get_base_center_world` returns
`loc + c` where `loc` is the translation component of the decomposed world
matrix and `c` is the base-center — mean of the lowest vertices when
`use_geometry=True`, bounding-box base center when `use_geometry=False` —
computed over the points transformed by `rot_matrix @ scale_matrix`. -/
theorem C2_base_center_ignore_rotation (o : Obj)
    (hv : o.verts ≠ []) (hb : o.bound_box.length = 8) :
    (∃ mz : ℚ,
      IsLeast {a | a ∈ (o.verts.map (applyRotScale o)).map V3.z} mz ∧
      get_base_center_world o true true =
        o.loc + meanOf ((o.verts.map (applyRotScale o)).filter
          (fun v => |v.z - mz| < 1 / 10000))) ∧
    (∃ mx Mx my My mz : ℚ,
      IsLeast {a | a ∈ (o.bound_box.map (applyRotScale o)).map V3.x} mx ∧
      IsGreatest {a | a ∈ (o.bound_box.map (applyRotScale o)).map V3.x} Mx ∧
      IsLeast {a | a ∈ (o.bound_box.map (applyRotScale o)).map V3.y} my ∧
      IsGreatest {a | a ∈ (o.bound_box.map (applyRotScale o)).map V3.y} My ∧
      IsLeast {a | a ∈ (o.bound_box.map (applyRotScale o)).map V3.z} mz ∧
      get_base_center_world o true false =
        o.loc + ⟨(mx + Mx) / 2, (my + My) / 2, mz⟩) := by
  have hbne : o.bound_box ≠ [] := by
    intro hn; rw [hn] at hb; exact absurd hb (by norm_num)
  have hvz : (o.verts.map (applyRotScale o)).map V3.z ≠ [] := by simpa using hv
  have hx : (o.bound_box.map (applyRotScale o)).map V3.x ≠ [] := by simpa using hbne
  have hy : (o.bound_box.map (applyRotScale o)).map V3.y ≠ [] := by simpa using hbne
  have hz : (o.bound_box.map (applyRotScale o)).map V3.z ≠ [] := by simpa using hbne
  constructor
  · exact ⟨pyMin ((o.verts.map (applyRotScale o)).map V3.z),
           pyMin_isLeast _ hvz, rfl⟩
  · exact ⟨pyMin ((o.bound_box.map (applyRotScale o)).map V3.x),
           pyMax ((o.bound_box.map (applyRotScale o)).map V3.x),
           pyMin ((o.bound_box.map (applyRotScale o)).map V3.y),
           pyMax ((o.bound_box.map (applyRotScale o)).map V3.y),
           pyMin ((o.bound_box.map (applyRotScale o)).map V3.z),
           pyMin_isLeast _ hx, pyMax_isGreatest _ hx,
           pyMin_isLeast _ hy, pyMax_isGreatest _ hy,
           pyMin_isLeast _ hz, rfl⟩

/-- Witness for C2 at the sample cube. -/
theorem C2_base_center_ignore_rotation_witness :
    (sampleObj.verts ≠ [] ∧ sampleObj.bound_box.length = 8) ∧
    ((∃ mz : ℚ,
      IsLeast {a | a ∈ (sampleObj.verts.map (applyRotScale sampleObj)).map V3.z} mz ∧
      get_base_center_world sampleObj true true =
        sampleObj.loc + meanOf ((sampleObj.verts.map (applyRotScale sampleObj)).filter
          (fun v => |v.z - mz| < 1 / 10000))) ∧
    (∃ mx Mx my My mz : ℚ,
      IsLeast {a | a ∈ (sampleObj.bound_box.map (applyRotScale sampleObj)).map V3.x} mx ∧
      IsGreatest {a | a ∈ (sampleObj.bound_box.map (applyRotScale sampleObj)).map V3.x} Mx ∧
      IsLeast {a | a ∈ (sampleObj.bound_box.map (applyRotScale sampleObj)).map V3.y} my ∧
      IsGreatest {a | a ∈ (sampleObj.bound_box.map (applyRotScale sampleObj)).map V3.y} My ∧
      IsLeast {a | a ∈ (sampleObj.bound_box.map (applyRotScale sampleObj)).map V3.z} mz ∧
      get_base_center_world sampleObj true false =
        sampleObj.loc + ⟨(mx + Mx) / 2, (my + My) / 2, mz⟩)) :=
  ⟨⟨by decide, by decide⟩,
   C2_base_center_ignore_rotation sampleObj (by decide) (by decide)⟩

/-- C3: on an object whose world matrix decomposes to identity rotation and
unit scale (a pure translation), the `ignore_rotation=True` and
`ignore_rotation=False` paths of `get_base_center_world` agree, for each
fixed value of `use_geometry`. -/
theorem C3_pure_translation_paths_agree (o : Obj) (ug : Bool)
    (hr : o.rotM = M3.idM) (hs : o.scale = ⟨1, 1, 1⟩) :
    get_base_center_world o true ug = get_base_center_world o false ug := by
  have hscale : ∀ v : V3 ℚ, V3.scaleApply ⟨1, 1, 1⟩ v = v := by
    intro v; ext <;> simp [V3.scaleApply]
  have hA : applyRotScale o = id := by
    funext v
    show o.rotM.mulVec (V3.scaleApply o.scale v) = v
    rw [hr, hs, hscale, M3.mulVec_idM]
  have hW : ∀ v : V3 ℚ, matrixWorld o v = v + o.loc := by
    intro v
    show o.rotM.mulVec (V3.scaleApply o.scale v) + o.loc = v + o.loc
    rw [hr, hs, hscale, M3.mulVec_idM]
  cases ug with
  | true =>
    have e1 : get_base_center_world o true true =
        o.loc + meanOf (baseVertsOf (o.verts.map (applyRotScale o))) := rfl
    have e2 : get_base_center_world o false true =
        matrixWorld o (meanOf (baseVertsOf o.verts)) := rfl
    rw [e1, e2, hA, List.map_id, hW, add_comm]
  | false =>
    have e1 : get_base_center_world o true false =
        o.loc + bboxBaseCenter (o.bound_box.map (applyRotScale o)) := rfl
    have e2 : get_base_center_world o false false =
        matrixWorld o (bboxBaseCenter o.bound_box) := rfl
    rw [e1, e2, hA, List.map_id, hW, add_comm]

/-- Witness for C3 at the sample cube (which has identity rotation and unit
scale). -/
theorem C3_pure_translation_paths_agree_witness :
    (sampleObj.rotM = M3.idM ∧ sampleObj.scale = ⟨1, 1, 1⟩) ∧
    get_base_center_world sampleObj true true = get_base_center_world sampleObj false true :=
  ⟨⟨rfl, rfl⟩, C3_pure_translation_paths_agree sampleObj true rfl rfl⟩

/-- C9: in the `use_geometry=True` branches of `get_base_center_world`, for
every mesh with at least one vertex the list the minimum z is taken over is
non-empty, and the `base_verts` tolerance filter keeps at least the vertex
attaining the minimum, so `len(base_verts)` is never zero. -/
theorem C9_base_verts_nonempty (o : Obj) (ir : Bool) (h : o.verts ≠ []) :
    geometryVerts o ir ≠ [] ∧ baseVertsOf (geometryVerts o ir) ≠ [] := by
  have hg : geometryVerts o ir ≠ [] := by
    cases ir <;> simp [geometryVerts, h]
  exact ⟨hg, baseVertsOf_ne_nil _ hg⟩

/-- Witness for C9 at the sample cube. -/
theorem C9_base_verts_nonempty_witness :
    sampleObj.verts ≠ [] ∧
    (geometryVerts sampleObj true ≠ [] ∧ baseVertsOf (geometryVerts sampleObj true) ≠ []) :=
  ⟨by decide, C9_base_verts_nonempty sampleObj true (by decide)⟩

/-! ## Claims C6, C7, C10 -/

/-- The accumulation loop of the `'AVERAGE'` branch of
`get_alignment_reference` computes the sums of locations and euler rotations
of the selected mesh objects, and their count. -/
theorem avgFold_eq (l : List Obj) :
    ∀ (p q : V3 ℚ) (n : ℕ),
    l.foldl (fun (a : V3 ℚ × V3 ℚ × ℕ) o =>
        if o.typ = ObjType.MESH then (a.1 + o.loc, a.2.1 + o.rotation_euler, a.2.2 + 1)
        else a) (p, q, n)
    = (p + ((l.filter (fun o => o.typ = ObjType.MESH)).map Obj.loc).sum,
       q + ((l.filter (fun o => o.typ = ObjType.MESH)).map Obj.rotation_euler).sum,
       n + (l.filter (fun o => o.typ = ObjType.MESH)).length) := by
  induction l with
  | nil => intro p q n; simp
  | cons o t ih =>
    intro p q n
    by_cases h : o.typ = ObjType.MESH
    · have hf : (o :: t).filter (fun o => o.typ = ObjType.MESH) =
          o :: t.filter (fun o => o.typ = ObjType.MESH) := by
        simp [List.filter_cons, h]
      rw [List.foldl_cons, if_pos h, ih, hf]
      simp only [List.map_cons, List.sum_cons, List.length_cons, Prod.mk.injEq]
      exact ⟨by rw [add_assoc], by rw [add_assoc], by omega⟩
    · have hf : (o :: t).filter (fun o => o.typ = ObjType.MESH) =
          t.filter (fun o => o.typ = ObjType.MESH) := by
        simp [List.filter_cons, h]
      rw [List.foldl_cons, if_neg h, ih, hf]

/-- C10 counterexample: with `relative_to='ACTIVE'` and no active object,
`get_alignment_reference` reads `context.active_object.location` off `None`
(modelled as `none`), so it is not total for every value of `relative_to`
and every selection. -/
theorem C10_counterexample :
    get_alignment_reference sampleCtxNoActive sampleSettingsActive = none := by
  decide

/-- C10 (amended): in the `'AVERAGE'` branch `get_alignment_reference`
divides the accumulated location and rotation by the count of selected mesh
objects only when that count is positive and returns the zero vector and
zero euler when no selected object is a mesh; and the function is total
whenever `relative_to` is not `'ACTIVE'` or an active object exists (with
`'ACTIVE'` and no active object it fails). -/
theorem C10_alignment_reference_average (c : Ctx) (s : Settings) :
    (s.relative_to = RelativeTo.AVERAGE →
      ((selectedObjects c).filter (fun o => o.typ = ObjType.MESH) = [] →
        get_alignment_reference c s = some (0, 0)) ∧
      ((selectedObjects c).filter (fun o => o.typ = ObjType.MESH) ≠ [] →
        get_alignment_reference c s = some
          (V3.divN (((selectedObjects c).filter (fun o => o.typ = ObjType.MESH)).map Obj.loc).sum
            ((selectedObjects c).filter (fun o => o.typ = ObjType.MESH)).length,
           V3.divN
            (((selectedObjects c).filter (fun o => o.typ = ObjType.MESH)).map
              Obj.rotation_euler).sum
            ((selectedObjects c).filter (fun o => o.typ = ObjType.MESH)).length))) ∧
    (s.relative_to ≠ RelativeTo.ACTIVE ∨ activeObject c ≠ none →
      (get_alignment_reference c s).isSome = true) := by
  constructor
  · intro hA
    constructor
    · intro hnil
      unfold get_alignment_reference
      rw [hA]
      simp only [avgFold_eq, hnil]
      simp
    · intro hnn
      unfold get_alignment_reference
      rw [hA]
      simp only [avgFold_eq]
      have hpos : 0 < ((selectedObjects c).filter (fun o => o.typ = ObjType.MESH)).length :=
        List.length_pos.mpr hnn
      simp only [zero_add]
      rw [if_pos hpos]
  · intro hT
    unfold get_alignment_reference
    cases hrel : s.relative_to with
    | ACTIVE =>
        rcases hT with hT | hT
        · exact absurd hrel hT
        · cases hao : activeObject c with
          | none => exact absurd hao hT
          | some a => simp [hao]
    | CURSOR => rfl
    | WORLD => rfl
    | AVERAGE =>
        simp only [avgFold_eq]
        split <;> rfl

/-- Witness for C10 (amended) at the sample scene. -/
theorem C10_alignment_reference_average_witness :
    ((sampleSettingsAverage.relative_to = RelativeTo.AVERAGE ∧
      (selectedObjects sampleCtx).filter (fun o => o.typ = ObjType.MESH) ≠ []) ∧
      sampleSettingsAverage.relative_to ≠ RelativeTo.ACTIVE ∨
        activeObject sampleCtx ≠ none) ∧
    get_alignment_reference sampleCtx sampleSettingsAverage = some
      (V3.divN
        (((selectedObjects sampleCtx).filter (fun o => o.typ = ObjType.MESH)).map Obj.loc).sum
        ((selectedObjects sampleCtx).filter (fun o => o.typ = ObjType.MESH)).length,
       V3.divN
        (((selectedObjects sampleCtx).filter (fun o => o.typ = ObjType.MESH)).map
          Obj.rotation_euler).sum
        ((selectedObjects sampleCtx).filter (fun o => o.typ = ObjType.MESH)).length) ∧
    (get_alignment_reference sampleCtx sampleSettingsAverage).isSome = true :=
  ⟨by decide,
   ((C10_alignment_reference_average sampleCtx sampleSettingsAverage).1 rfl).2 (by decide),
   (C10_alignment_reference_average sampleCtx sampleSettingsAverage).2 (by decide)⟩

/-- C7: `batch_align_objects` returns "No objects selected" on an empty
selection and "No active object selected" when aligning relative to a
missing active object; in both error cases no undo step is pushed and no
object is modified; otherwise exactly one undo step is pushed and `None` is
returned. -/
theorem C7_batch_align_error_handling (c : Ctx) (s : Settings) :
    ((selectedObjects c).length < 1 →
      batch_align_objects c s = ⟨some "No objects selected", c.objects, 0⟩) ∧
    (¬(selectedObjects c).length < 1 →
      s.relative_to = RelativeTo.ACTIVE → activeObject c = none →
      batch_align_objects c s = ⟨some "No active object selected", c.objects, 0⟩) ∧
    (¬(selectedObjects c).length < 1 →
      (s.relative_to = RelativeTo.ACTIVE → activeObject c ≠ none) →
      (batch_align_objects c s).error = none ∧
      (batch_align_objects c s).undoPushes = 1) := by
  refine ⟨?_, ?_, ?_⟩
  · intro h
    unfold batch_align_objects
    rw [if_pos h]
  · intro h1 h2 h3
    unfold batch_align_objects
    rw [if_neg h1, if_pos ⟨h2, h3⟩]
  · intro h1 h2
    have hng : ¬(s.relative_to = RelativeTo.ACTIVE ∧ activeObject c = none) := by
      rintro ⟨ha, hb⟩
      exact h2 ha hb
    unfold batch_align_objects
    rw [if_neg h1, if_neg hng]
    exact ⟨rfl, rfl⟩

/-- Witness for C7: the empty-selection branch on the empty scene and the
success branch on the sample scene. -/
theorem C7_batch_align_error_handling_witness :
    ((selectedObjects emptyCtx).length < 1 ∧
      batch_align_objects emptyCtx sampleSettings =
        ⟨some "No objects selected", emptyCtx.objects, 0⟩) ∧
    (¬(selectedObjects sampleCtx).length < 1 ∧
      (batch_align_objects sampleCtx sampleSettings).error = none ∧
      (batch_align_objects sampleCtx sampleSettings).undoPushes = 1) :=
  ⟨⟨by decide, (C7_batch_align_error_handling emptyCtx sampleSettings).1 (by decide)⟩,
   by
    refine ⟨by decide, ?_⟩
    exact (C7_batch_align_error_handling sampleCtx sampleSettings).2.2 (by decide) (by decide)⟩

/-- The guarded loop body of `batch_align_objects` coincides with the
componentwise update described by claim C6. -/
theorem alignObj_eq_claimedUpdate (c : Ctx) (s : Settings) (o : Obj) :
    (if o.select ∧ ¬(s.relative_to = RelativeTo.ACTIVE ∧ c.active = some o.id) then
        alignObj s ((get_alignment_reference c s).getD (0, 0)) o
      else o) = claimedUpdate c s o := by
  by_cases hsel : o.select = true
  · by_cases hskip : s.relative_to = RelativeTo.ACTIVE ∧ c.active = some o.id
    · rw [if_neg (by simp [hskip]), claimedUpdate, if_pos (Or.inr hskip)]
    · rw [if_pos ⟨hsel, hskip⟩, claimedUpdate, if_neg (by simp [hsel, hskip])]
      cases hm : s.align_mode <;> simp [alignObj, hm]
  · have hsel' : o.select = false := by
      cases h : o.select
      · rfl
      · exact absurd h hsel
    rw [if_neg (by simp [hsel']), claimedUpdate, if_pos (Or.inl hsel')]

/-- C6: for a non-empty selection (and, when aligning relative to the
active object, an existing active object), `batch_align_objects` rewrites,
on each selected object except the active one when `relative_to='ACTIVE'`,
exactly the location components (in LOCATION/BOTH mode) and euler-rotation
components (in ROTATION/BOTH mode) of the enabled axes to the reference
values, leaving every other component, every component of disabled axes,
and every non-selected object untouched. -/
theorem C6_batch_align_components (c : Ctx) (s : Settings)
    (hne : selectedObjects c ≠ [])
    (hact : s.relative_to = RelativeTo.ACTIVE → activeObject c ≠ none) :
    (batch_align_objects c s).objects = c.objects.map (claimedUpdate c s) := by
  have h1 : ¬(selectedObjects c).length < 1 := by
    have := List.length_pos.mpr hne
    omega
  have hng : ¬(s.relative_to = RelativeTo.ACTIVE ∧ activeObject c = none) := by
    rintro ⟨ha, hb⟩
    exact hact ha hb
  unfold batch_align_objects
  rw [if_neg h1, if_neg hng]
  simp only
  exact List.map_congr_left (fun o _ => alignObj_eq_claimedUpdate c s o)

/-- Witness for C6 at the sample scene. -/
theorem C6_batch_align_components_witness :
    (selectedObjects sampleCtx ≠ [] ∧
      (sampleSettings.relative_to = RelativeTo.ACTIVE → activeObject sampleCtx ≠ none)) ∧
    (batch_align_objects sampleCtx sampleSettings).objects =
      sampleCtx.objects.map (claimedUpdate sampleCtx sampleSettings) :=
  ⟨⟨by decide, by decide⟩,
   C6_batch_align_components sampleCtx sampleSettings (by decide) (by decide)⟩

/-! ## Claim C5: the tangent-frame construction -/

theorem dotComm {α : Type} [Field α] (a b : V3 α) : V3.dot a b = V3.dot b a := by
  simp only [V3.dot]; ring

theorem dotCross_left {α : Type} [Field α] (a b : V3 α) :
    V3.dot (V3.cross a b) a = 0 := by
  simp only [V3.dot, V3.cross]; ring

theorem dotCross_right {α : Type} [Field α] (a b : V3 α) :
    V3.dot (V3.cross a b) b = 0 := by
  simp only [V3.dot, V3.cross]; ring

/-- Lagrange identity for the squared length of a cross product. -/
theorem dotCross_sq {α : Type} [Field α] (a b : V3 α) :
    V3.dot (V3.cross a b) (V3.cross a b) =
      V3.dot a a * V3.dot b b - V3.dot a b ^ 2 := by
  simp only [V3.dot, V3.cross]; ring

/-- Vector triple product `(a x b) x a = (a.a) b - (b.a) a`. -/
theorem crossCross {α : Type} [Field α] (a b : V3 α) :
    V3.cross (V3.cross a b) a = V3.smul (V3.dot a a) b - V3.smul (V3.dot b a) a := by
  ext <;> simp only [V3.cross, V3.smul, V3.dot, V3.sub_x, V3.sub_y, V3.sub_z] <;> ring

theorem dotSmul_left {α : Type} [Field α] (k : α) (a b : V3 α) :
    V3.dot (V3.smul k a) b = k * V3.dot a b := by
  simp only [V3.dot, V3.smul]; ring

theorem dotSmul_right {α : Type} [Field α] (k : α) (a b : V3 α) :
    V3.dot a (V3.smul k b) = k * V3.dot a b := by
  simp only [V3.dot, V3.smul]; ring

/-- `normalized` of a vector of non-zero length rescales it by the inverse
length. -/
theorem normalized_eq_smul {v : V3 ℝ} (h : V3.dot v v ≠ 0) :
    normalized v = V3.smul (1 / Real.sqrt (V3.dot v v)) v := by
  unfold normalized
  rw [if_neg (show ¬V3.normSq v = 0 from h)]
  rfl

/-- `normalized` of a unit vector is the vector itself. -/
theorem normalized_dot_one {v : V3 ℝ} (h : V3.dot v v = 1) : normalized v = v := by
  unfold normalized
  rw [if_neg (show ¬V3.normSq v = 0 by rw [show V3.normSq v = V3.dot v v from rfl, h]; norm_num)]
  rw [show V3.normSq v = V3.dot v v from rfl, h, Real.sqrt_one]
  ext <;> simp [V3.smul]

/-- A vector of positive squared length normalises to a unit vector. -/
theorem dot_normalized {v : V3 ℝ} (h : 0 < V3.dot v v) :
    V3.dot (normalized v) (normalized v) = 1 := by
  rw [normalized_eq_smul h.ne', dotSmul_left, dotSmul_right]
  have hsp : 0 < Real.sqrt (V3.dot v v) := Real.sqrt_pos.mpr h
  field_simp

/-- C5 counterexample: the claim quantifies over every tangent `t` with
`|n.dot(t)| <= 0.99`, which admits the zero tangent (and, in the program,
`normalized()` of a zero sum does return the zero vector).  There the
fallback leaves `t` unchanged, the binormal `normalize(n x t)` is the zero
vector, and no orthonormal frame results. -/
theorem C5_counterexample :
    V3.dot (⟨0, 0, 1⟩ : V3 ℝ) ⟨0, 0, 1⟩ = 1 ∧
    fixTangent ⟨0, 0, 1⟩ ⟨0, 0, 0⟩ = ⟨0, 0, 0⟩ ∧
    |V3.dot (⟨0, 0, 1⟩ : V3 ℝ) ⟨0, 0, 0⟩| ≤ 0.99 ∧
    ¬IsRHOrthonormalFrame (buildFrame ⟨0, 0, 1⟩ ⟨0, 0, 0⟩).1
      (buildFrame ⟨0, 0, 1⟩ ⟨0, 0, 0⟩).2 ⟨0, 0, 1⟩ := by
  have hdot : V3.dot (⟨0, 0, 1⟩ : V3 ℝ) ⟨0, 0, 0⟩ = 0 := by
    simp [V3.dot]
  have hcross : V3.cross (⟨0, 0, 1⟩ : V3 ℝ) ⟨0, 0, 0⟩ = ⟨0, 0, 0⟩ := by
    ext <;> simp [V3.cross]
  have hzero : normalized (⟨0, 0, 0⟩ : V3 ℝ) = ⟨0, 0, 0⟩ := by
    unfold normalized
    rw [if_pos (show V3.normSq (⟨0, 0, 0⟩ : V3 ℝ) = 0 by simp [V3.normSq, V3.dot])]
  have hb : (buildFrame ⟨0, 0, 1⟩ ⟨0, 0, 0⟩).2 = ⟨0, 0, 0⟩ := by
    show normalized (V3.cross ⟨0, 0, 1⟩ ⟨0, 0, 0⟩) = _
    rw [hcross, hzero]
  refine ⟨by simp [V3.dot], ?_, ?_, ?_⟩
  · unfold fixTangent
    rw [if_neg (by rw [hdot]; norm_num)]
  · rw [hdot]; norm_num
  · rintro ⟨-, hbb, -⟩
    rw [hb] at hbb
    simp [V3.dot] at hbb

/-- C5 (amended): for every unit normal `n` and every *unit* tangent `t`
with `|n.dot(t)| <= 0.99` (the situation after the fallback substitution
when the incoming tangent is unit-length), the constructed
`b = normalize(n x t)` and `t' = normalize(b x n)` form with `n` a
right-handed orthonormal frame: all three are unit vectors, pairwise
orthogonal, and `t' x b = n`. -/
theorem C5_frame_construction (n t : V3 ℝ) (hn : V3.dot n n = 1)
    (ht : V3.dot t t = 1) (hd : |V3.dot n t| ≤ 0.99) :
    IsRHOrthonormalFrame (buildFrame n t).1 (buildFrame n t).2 n := by
  have hcpos : 0 < V3.dot (V3.cross n t) (V3.cross n t) := by
    rw [dotCross_sq, hn, ht]
    nlinarith [sq_abs (V3.dot n t), abs_nonneg (V3.dot n t)]
  have hbdef : (buildFrame n t).2 =
      V3.smul (1 / Real.sqrt (V3.dot (V3.cross n t) (V3.cross n t))) (V3.cross n t) := by
    show normalized (V3.cross n t) = _
    exact normalized_eq_smul hcpos.ne'
  have hbb : V3.dot (buildFrame n t).2 (buildFrame n t).2 = 1 := by
    show V3.dot (normalized (V3.cross n t)) (normalized (V3.cross n t)) = 1
    exact dot_normalized hcpos
  have hbn : V3.dot (buildFrame n t).2 n = 0 := by
    rw [hbdef, dotSmul_left, dotCross_left, mul_zero]
  have hc2 : V3.dot (V3.cross (buildFrame n t).2 n) (V3.cross (buildFrame n t).2 n) = 1 := by
    rw [dotCross_sq, hbb, hn, hbn]; ring
  have htdef : (buildFrame n t).1 = V3.cross (buildFrame n t).2 n := by
    show normalized (V3.cross (normalized (V3.cross n t)) n) = _
    exact normalized_dot_one hc2
  refine ⟨?_, hbb, hn, ?_, ?_, hbn, ?_⟩
  · rw [htdef]; exact hc2
  · rw [htdef]; exact dotCross_left _ _
  · rw [htdef]; exact dotCross_right _ _
  · rw [htdef, crossCross, hbb, dotComm n _, hbn]
    ext <;> simp [V3.smul]

/-- Witness for C5 (amended) at `n = e_z`, `t = e_x`. -/
theorem C5_frame_construction_witness :
    (V3.dot (⟨0, 0, 1⟩ : V3 ℝ) ⟨0, 0, 1⟩ = 1 ∧
     V3.dot (⟨1, 0, 0⟩ : V3 ℝ) ⟨1, 0, 0⟩ = 1 ∧
     |V3.dot (⟨0, 0, 1⟩ : V3 ℝ) ⟨1, 0, 0⟩| ≤ 0.99) ∧
    IsRHOrthonormalFrame (buildFrame ⟨0, 0, 1⟩ ⟨1, 0, 0⟩).1
      (buildFrame ⟨0, 0, 1⟩ ⟨1, 0, 0⟩).2 ⟨0, 0, 1⟩ :=
  ⟨⟨by norm_num [V3.dot], by norm_num [V3.dot], by norm_num [V3.dot]⟩,
   C5_frame_construction ⟨0, 0, 1⟩ ⟨1, 0, 0⟩ (by norm_num [V3.dot])
     (by norm_num [V3.dot]) (by norm_num [V3.dot])⟩

/-! ## Claim C4: the selection median of compute_alignment_data -/

theorem pyUpdate_mem : ∀ (new a : List ℕ) (j : ℕ),
    j ∈ pyUpdate a new ↔ j ∈ a ∨ j ∈ new := by
  intro new
  induction new with
  | nil => intro a j; simp [pyUpdate]
  | cons i is ih =>
    intro a j
    have h1 : pyUpdate a (i :: is) = pyUpdate (if i ∈ a then a else a ++ [i]) is := rfl
    rw [h1, ih]
    by_cases h : i ∈ a
    · rw [if_pos h]
      simp only [List.mem_cons]
      constructor
      · rintro (hj | hj)
        · exact Or.inl hj
        · exact Or.inr (Or.inr hj)
      · rintro (hj | rfl | hj)
        · exact Or.inl hj
        · exact Or.inl h
        · exact Or.inr hj
    · rw [if_neg h]
      simp only [List.mem_append, List.mem_singleton, List.mem_cons]
      tauto

theorem pyUpdate_nodup : ∀ (new a : List ℕ), a.Nodup → (pyUpdate a new).Nodup := by
  intro new
  induction new with
  | nil => intro a h; exact h
  | cons i is ih =>
    intro a h
    have h1 : pyUpdate a (i :: is) = pyUpdate (if i ∈ a then a else a ++ [i]) is := rfl
    rw [h1]
    apply ih
    by_cases hm : i ∈ a
    · rw [if_pos hm]; exact h
    · rw [if_neg hm]
      rw [List.nodup_append]
      refine ⟨h, List.nodup_singleton i, ?_⟩
      intro x hx hxi
      rw [List.mem_singleton] at hxi
      subst hxi
      exact hm hx

theorem foldPyUpdate_mem {β : Type} (g : β → List ℕ) :
    ∀ (l : List β) (a : List ℕ) (j : ℕ),
      j ∈ l.foldl (fun acc x => pyUpdate acc (g x)) a ↔ j ∈ a ∨ j ∈ l.flatMap g := by
  intro l
  induction l with
  | nil => intro a j; simp
  | cons x xs ih =>
    intro a j
    rw [List.foldl_cons, ih, pyUpdate_mem]
    simp only [List.flatMap_cons, List.mem_append]
    tauto

theorem foldPyUpdate_nodup {β : Type} (g : β → List ℕ) :
    ∀ (l : List β) (a : List ℕ), a.Nodup →
      (l.foldl (fun acc x => pyUpdate acc (g x)) a).Nodup := by
  intro l
  induction l with
  | nil => intro a h; exact h
  | cons x xs ih => intro a h; exact ih _ (pyUpdate_nodup _ _ h)

/-- The insertion-ordered union built by the `verts.update(...)` loops
enumerates the `Finset` of distinct vertex ids exactly once, so the mean
over it equals the mean over the `Finset`. -/
theorem foldPyUpdate_finsetMean {β : Type} (g : β → List ℕ) (l : List β) (co : ℕ → V3 ℝ) :
    V3.divN (((l.flatMap g).toFinset).sum co) ((l.flatMap g).toFinset).card =
    V3.divN (((l.foldl (fun acc x => pyUpdate acc (g x)) []).map co).sum)
      (l.foldl (fun acc x => pyUpdate acc (g x)) []).length := by
  have hnd : (l.foldl (fun acc x => pyUpdate acc (g x)) []).Nodup :=
    foldPyUpdate_nodup g l [] List.nodup_nil
  have hset : (l.foldl (fun acc x => pyUpdate acc (g x)) []).toFinset =
      (l.flatMap g).toFinset := by
    apply Finset.ext
    intro j
    simp only [List.mem_toFinset]
    rw [foldPyUpdate_mem]
    simp
  rw [← hset, List.sum_toFinset co hnd, List.toFinset_card_of_nodup hnd]

/-- Specialisation of `foldPyUpdate_finsetMean` to the vertex-coordinate
mean used by `compute_alignment_data`. -/
theorem foldPyUpdate_finsetMean_co {β : Type} (bm : BMesh) (g : β → List ℕ) (l : List β) :
    finsetMean bm ((l.flatMap g).toFinset) =
      meanCo bm (l.foldl (fun acc x => pyUpdate acc (g x)) []) :=
  foldPyUpdate_finsetMean g l (fun i => (findVert bm i).co)

/-- The `Finset` mean over the distinct vertices of a face list equals the
mean the face branch computes. -/
theorem face_location_eq (bm : BMesh) (l : List BMFace) :
    finsetMean bm ((l.flatMap (·.vs)).toFinset) =
      meanCo bm (l.foldl (fun a f => pyUpdate a f.vs) []) :=
  foldPyUpdate_finsetMean_co bm (fun f => f.vs) l

/-- The `Finset` mean over the distinct endpoints of an edge list equals
the mean the edge branch computes. -/
theorem edge_location_eq (bm : BMesh) (l : List BMEdge) :
    finsetMean bm ((l.flatMap (fun e => [e.v0, e.v1])).toFinset) =
      meanCo bm (l.foldl (fun a e => pyUpdate a [e.v0, e.v1]) []) :=
  foldPyUpdate_finsetMean_co bm (fun e => [e.v0, e.v1]) l

theorem faceAlignment_location (bm : BMesh) (l : List BMFace) (f0 : BMFace) :
    (faceAlignment bm l f0).2.1 = meanCo bm (l.foldl (fun a f => pyUpdate a f.vs) []) := rfl

theorem edgeAlignment_location (bm : BMesh) (l : List BMEdge) :
    (edgeAlignment bm l).2.1 =
      meanCo bm (l.foldl (fun a e => pyUpdate a [e.v0, e.v1]) []) := rfl

theorem vertAlignment_location (bm : BMesh) (l : List BMVert) (v0 : BMVert) :
    (vertAlignment bm l v0).2.1 = V3.divN ((l.map (·.co)).sum) l.length := rfl

/-- C4: `compute_alignment_data` selects faces, then edges, then vertices,
returns as location the arithmetic mean of the coordinates of the distinct
vertices of the selected elements of the chosen kind, and returns `None`
exactly when no face, edge or vertex is selected. -/
theorem C4_compute_alignment_location (bm : BMesh) :
    (compute_alignment_data bm = none ↔
      bm.faces.filter (·.select) = [] ∧ bm.edges.filter (·.select) = [] ∧
        bm.verts.filter (·.select) = []) ∧
    (∀ r, compute_alignment_data bm = some r → claimedLocation bm = some r.2.1) := by
  rcases hf : bm.faces.filter (·.select) with - | ⟨f0, fs⟩
  · rcases he : bm.edges.filter (·.select) with - | ⟨e0, es⟩
    · rcases hv : bm.verts.filter (·.select) with - | ⟨v0, vs⟩
      · constructor
        · simp [compute_alignment_data, get_selection_data, hf, he, hv]
        · intro r hr
          simp [compute_alignment_data, get_selection_data, hf, he, hv] at hr
      · constructor
        · simp [compute_alignment_data, get_selection_data, hf, he, hv]
        · intro r hr
          simp only [compute_alignment_data, get_selection_data, hf, he, hv,
            Option.some.injEq] at hr
          simp only [claimedLocation, get_selection_data, hf, he, hv]
          exact congrArg some
            ((vertAlignment_location bm (v0 :: vs) v0).symm.trans
              (congrArg (fun p : V3 ℝ × V3 ℝ × V3 ℝ => p.2.1) hr))
    · constructor
      · simp [compute_alignment_data, get_selection_data, hf, he]
      · intro r hr
        simp only [compute_alignment_data, get_selection_data, hf, he,
          Option.some.injEq] at hr
        simp only [claimedLocation, get_selection_data, hf, he]
        exact congrArg some
          (((edge_location_eq bm (e0 :: es)).trans
              (edgeAlignment_location bm (e0 :: es)).symm).trans
            (congrArg (fun p : V3 ℝ × V3 ℝ × V3 ℝ => p.2.1) hr))
  · constructor
    · simp [compute_alignment_data, get_selection_data, hf]
    · intro r hr
      simp only [compute_alignment_data, get_selection_data, hf,
        Option.some.injEq] at hr
      simp only [claimedLocation, get_selection_data, hf]
      exact congrArg some
        (((face_location_eq bm (f0 :: fs)).trans
            (faceAlignment_location bm (f0 :: fs) f0).symm).trans
          (congrArg (fun p : V3 ℝ × V3 ℝ × V3 ℝ => p.2.1) hr))

/-- Witness for C4 at a one-vertex mesh with the vertex selected. -/
theorem C4_compute_alignment_location_witness :
    compute_alignment_data sampleBM =
      some (vertAlignment sampleBM [sampleBMVert] sampleBMVert) ∧
    claimedLocation sampleBM =
      some (vertAlignment sampleBM [sampleBMVert] sampleBMVert).2.1 := by
  have h : compute_alignment_data sampleBM =
      some (vertAlignment sampleBM [sampleBMVert] sampleBMVert) := by
    simp [compute_alignment_data, get_selection_data, sampleBM, sampleBMVert]
  exact ⟨h, (C4_compute_alignment_location sampleBM).2 _ h⟩

/-! ## Claim C8: state restoration of the pivot operators -/

theorem map_core_of_pointwise {g : Obj → Obj} (hg : ∀ o, (g o).core = o.core)
    (l : List Obj) : (l.map g).map Obj.core = l.map Obj.core := by
  rw [List.map_map]
  exact List.map_congr_left (fun o _ => hg o)

theorem selUpd_core (i : ℕ) (b : Bool) (o : Obj) : (selUpd i b o).core = o.core := by
  unfold selUpd
  by_cases h : o.id = i
  · rw [if_pos h]; rfl
  · rw [if_neg h]

theorem deselUpd_core (o : Obj) : (deselUpd o).core = o.core := rfl

theorem originUpd_core (L : V3 ℚ) (o : Obj) : (originUpd L o).core = o.core := by
  unfold originUpd
  by_cases h : o.select = true
  · rw [if_pos h]; rfl
  · rw [if_neg h]

theorem restUpd_core (saved : List (ℕ × Bool)) (o : Obj) :
    (restUpd saved o).core = o.core := by
  unfold restUpd
  cases saved.lookup o.id <;> rfl

theorem restUpd_origin (saved : List (ℕ × Bool)) (o : Obj) :
    (restUpd saved o).origin = o.origin := by
  unfold restUpd
  cases saved.lookup o.id <;> rfl

theorem map_id_of_map_core {l l' : List Obj}
    (h : l'.map Obj.core = l.map Obj.core) : l'.map Obj.id = l.map Obj.id := by
  have h2 := congrArg (List.map Prod.fst) h
  rw [List.map_map, List.map_map] at h2
  exact h2

/-- The object list after one loop iteration of `set_pivot_to_base`: either
untouched (id not found, or not a mesh), or rewritten by the
select/origin-set/deselect sequence. -/
theorem pivotBaseStep_objects (ir ug : Bool) (st : Ctx) (i : ℕ) :
    (pivotBaseStep ir ug st i).objects = st.objects ∨
    ∃ o, st.objects.find? (fun x => x.id = i) = some o ∧ o.typ = ObjType.MESH ∧
      (pivotBaseStep ir ug st i).objects =
        ((st.objects.map (selUpd i true)).map
          (originUpd (get_base_center_world o ir ug))).map (selUpd i false) := by
  unfold pivotBaseStep
  cases hf : st.objects.find? (fun x => x.id = i) with
  | none => exact Or.inl rfl
  | some o =>
    dsimp only
    by_cases hm : o.typ ≠ ObjType.MESH
    · rw [if_pos hm]
      exact Or.inl rfl
    · rw [if_neg hm]
      push_neg at hm
      exact Or.inr ⟨o, rfl, hm, rfl⟩

theorem pivotBaseStep_core (ir ug : Bool) (st : Ctx) (i : ℕ) :
    ((pivotBaseStep ir ug st i).objects).map Obj.core = st.objects.map Obj.core := by
  rcases pivotBaseStep_objects ir ug st i with h | ⟨o, -, -, h⟩
  · rw [h]
  · rw [h, map_core_of_pointwise (selUpd_core i false),
        map_core_of_pointwise (originUpd_core _),
        map_core_of_pointwise (selUpd_core i true)]

theorem foldPivotBase_core (ir ug : Bool) :
    ∀ (ids : List ℕ) (st : Ctx),
      ((ids.foldl (pivotBaseStep ir ug) st).objects).map Obj.core =
        st.objects.map Obj.core := by
  intro ids
  induction ids with
  | nil => intro st; rfl
  | cons i t ih =>
    intro st
    rw [List.foldl_cons, ih, pivotBaseStep_core]

theorem pivotBaseStep_deselected (ir ug : Bool) (st : Ctx) (i : ℕ)
    (h : ∀ o ∈ st.objects, o.select = false) :
    ∀ o ∈ (pivotBaseStep ir ug st i).objects, o.select = false := by
  rcases pivotBaseStep_objects ir ug st i with heq | ⟨m, -, -, heq⟩
  · rw [heq]; exact h
  · rw [heq]
    intro o ho
    simp only [List.map_map, List.mem_map, Function.comp] at ho
    obtain ⟨x, hx, rfl⟩ := ho
    by_cases hid : x.id = i
    · simp [selUpd, originUpd, hid]
    · simp [selUpd, originUpd, hid, h x hx]

/-- Two objects of a scene with duplicate-free ids and the same id are the
same object. -/
theorem id_unique {l : List Obj} (h : (l.map Obj.id).Nodup) {a b : Obj}
    (ha : a ∈ l) (hb : b ∈ l) (hid : a.id = b.id) : a = b :=
  List.inj_on_of_nodup_map h ha hb hid

theorem pivotBaseStep_origin (ir ug : Bool) (st : Ctx) (i : ℕ)
    (hall : ∀ o ∈ st.objects, o.select = false)
    (hnd : (st.objects.map Obj.id).Nodup) :
    ∀ (n : ℕ) (o o' : Obj), st.objects[n]? = some o →
      (pivotBaseStep ir ug st i).objects[n]? = some o' →
      (o.id ≠ i ∨ o.typ ≠ ObjType.MESH) → o'.origin = o.origin := by
  intro n o o' ho ho' hcond
  rcases pivotBaseStep_objects ir ug st i with heq | ⟨m, hfind, hmesh, heq⟩
  · rw [heq, ho] at ho'
    cases ho'
    rfl
  · rw [heq] at ho'
    simp only [List.map_map, List.getElem?_map, ho, Option.map_some',
      Option.some.injEq, Function.comp] at ho'
    by_cases hid : o.id = i
    · rcases hcond with hcond | hcond
      · exact absurd hid hcond
      · have hmem : o ∈ st.objects := List.getElem?_mem ho
        have hmmem : m ∈ st.objects := List.mem_of_find?_eq_some hfind
        have hmi : m.id = i := by
          have := List.find?_some hfind
          simpa using this
        have : o = m := id_unique hnd hmem hmmem (by rw [hid, hmi])
        rw [this] at hcond
        exact absurd hmesh hcond
    · rw [← ho']
      simp [selUpd, originUpd, hid, hall o (List.getElem?_mem ho)]

theorem foldPivotBase_origin (ir ug : Bool) :
    ∀ (ids : List ℕ) (st : Ctx),
      (∀ o ∈ st.objects, o.select = false) →
      (st.objects.map Obj.id).Nodup →
      ∀ (n : ℕ) (o o' : Obj), st.objects[n]? = some o →
        ((ids.foldl (pivotBaseStep ir ug) st).objects)[n]? = some o' →
        (o.id ∉ ids ∨ o.typ ≠ ObjType.MESH) → o'.origin = o.origin := by
  intro ids
  induction ids with
  | nil =>
    intro st hall hnd n o o' ho ho' hcond
    rw [List.foldl_nil, ho] at ho'
    cases ho'
    rfl
  | cons i t ih =>
    intro st hall hnd n o o' ho ho' hcond
    rw [List.foldl_cons] at ho'
    have hcore : (pivotBaseStep ir ug st i).objects.map Obj.core =
        st.objects.map Obj.core := pivotBaseStep_core ir ug st i
    have hlen : (pivotBaseStep ir ug st i).objects.length = st.objects.length := by
      have h2 := congrArg List.length hcore
      simpa using h2
    have hn : n < st.objects.length := (List.getElem?_eq_some_iff.mp ho).1
    obtain ⟨o₁, ho₁⟩ : ∃ x, (pivotBaseStep ir ug st i).objects[n]? = some x := by
      cases hx : (pivotBaseStep ir ug st i).objects[n]? with
      | none =>
        rw [List.getElem?_eq_none_iff, hlen] at hx
        omega
      | some x => exact ⟨x, rfl⟩
    have hco : o₁.core = o.core := by
      have h2 := congrArg (fun l : List _ => l[n]?) hcore
      simp only [List.getElem?_map, ho, ho₁, Option.map_some',
        Option.some.injEq] at h2
      exact h2
    have hparts : o₁.id = o.id ∧ o₁.typ = o.typ := by
      have h2 := congrArg Prod.fst hco
      have h3 := congrArg (fun p => p.2.1) hco
      exact ⟨h2, h3⟩
    have horg1 : o₁.origin = o.origin := by
      refine pivotBaseStep_origin ir ug st i hall hnd n o o₁ ho ho₁ ?_
      rcases hcond with hcond | hcond
      · exact Or.inl (fun hx => hcond (by rw [hx]; exact List.mem_cons_self i t))
      · exact Or.inr hcond
    have hall1 : ∀ x ∈ (pivotBaseStep ir ug st i).objects, x.select = false :=
      pivotBaseStep_deselected ir ug st i hall
    have hnd1 : ((pivotBaseStep ir ug st i).objects.map Obj.id).Nodup := by
      rw [map_id_of_map_core hcore]
      exact hnd
    have hrec : o'.origin = o₁.origin := by
      refine ih (pivotBaseStep ir ug st i) hall1 hnd1 n o₁ o' ho₁ ho' ?_
      rcases hcond with hcond | hcond
      · exact Or.inl (by rw [hparts.1]; exact fun hx => hcond (List.mem_cons_of_mem i hx))
      · exact Or.inr (by rw [hparts.2]; exact hcond)
    rw [hrec, horg1]

/-- Looking an object's id up in the saved selection dict returns exactly
its saved flag when ids are duplicate-free. -/
theorem lookup_saved (l : List Obj) (hnd : (l.map Obj.id).Nodup) :
    ∀ (n : ℕ) (o : Obj), l[n]? = some o →
      (l.map (fun x => (x.id, x.select))).lookup o.id = some o.select := by
  induction l with
  | nil => intro n o h; simp at h
  | cons a t ih =>
    intro n o h
    cases n with
    | zero =>
      rw [List.getElem?_cons_zero] at h
      injection h with h2
      subst h2
      simp [List.lookup]
    | succ m =>
      have ht : t[m]? = some o := by simpa using h
      have hnd' : (a.id :: t.map Obj.id).Nodup := by simpa using hnd
      have hne : o.id ≠ a.id := by
        intro hcontra
        have homem : o ∈ t := List.getElem?_mem ht
        have hmem2 : o.id ∈ t.map Obj.id := List.mem_map_of_mem _ homem
        rw [hcontra] at hmem2
        exact (List.nodup_cons.mp hnd').1 hmem2
      have hb : (o.id == a.id) = false := by simpa using hne
      simp only [List.map_cons, List.lookup, hb]
      exact ih (List.nodup_cons.mp hnd').2 m o ht

/-- Restoring the saved flags puts every selection flag back, index by
index, when the scene's ids are duplicate-free. -/
theorem restoreSel_select (orig objs : List Obj)
    (hid : objs.map Obj.id = orig.map Obj.id)
    (hnd : (orig.map Obj.id).Nodup) :
    (restoreSel objs (orig.map (fun o => (o.id, o.select)))).map Obj.select
      = orig.map Obj.select := by
  have hlen : objs.length = orig.length := by
    have h2 := congrArg List.length hid
    simpa using h2
  apply List.ext_getElem?
  intro n
  unfold restoreSel
  rw [List.getElem?_map, List.getElem?_map, List.getElem?_map]
  cases ho : objs[n]? with
  | none =>
    have hno : orig[n]? = none := by
      rw [List.getElem?_eq_none_iff] at ho ⊢
      omega
    rw [hno]
    rfl
  | some x =>
    obtain ⟨y, hy⟩ : ∃ y, orig[n]? = some y := by
      cases hy : orig[n]? with
      | none =>
        rw [List.getElem?_eq_none_iff] at hy
        have := (List.getElem?_eq_some_iff.mp ho).1
        omega
      | some y => exact ⟨y, rfl⟩
    have hxy : x.id = y.id := by
      have h2 := congrArg (fun l : List ℕ => l[n]?) hid
      simp only [List.getElem?_map, ho, hy, Option.map_some',
        Option.some.injEq] at h2
      exact h2
    rw [hy]
    simp only [Option.map_some', Option.some.injEq]
    unfold restUpd
    rw [hxy, lookup_saved orig hnd n y hy]

/-- After `select_all(action=DESELECT)` the dynamic `selected_objects` list
is empty. -/
theorem selectedObjects_deselect (st : Ctx) :
    selectedObjects { st with objects := deselectAll st.objects } = [] := by
  unfold selectedObjects deselectAll
  dsimp only
  apply List.filter_eq_nil_iff.mpr
  intro o ho
  obtain ⟨x, -, rfl⟩ := List.mem_map.mp ho
  simp [deselUpd]

theorem stateRestored_refl (st : Ctx) (processed : List ℕ) :
    StateRestored st st processed :=
  ⟨rfl, rfl, rfl, rfl, fun _ _ _ ho ho' _ => by
    rw [ho] at ho'
    cases ho'
    rfl⟩

/-- C8 (amended): `set_pivot_to_base` and `set_pivot_to_cursor` restore,
after processing — including when an exception interrupts the loop after any
number of iterations, via their `finally` blocks — the 3D cursor's location
and rotation and every object's selection state; only processed mesh
objects' origins may differ afterwards.  The active object is restored by
`set_pivot_to_cursor` always, and by `set_pivot_to_base` whenever some
object was active beforehand (its `finally` skips the restore when the saved
active object is `None`, leaving the last processed object active). -/
theorem C8_pivot_state_restored (st : Ctx) (objIds : List ℕ) (ir ug : Bool) (k kc : ℕ)
    (hnd : (st.objects.map Obj.id).Nodup) :
    (StateRestored st (set_pivot_to_base_run objIds ir ug k st) (objIds.take k) ∧
      (st.active ≠ none → (set_pivot_to_base_run objIds ir ug k st).active = st.active)) ∧
    (StateRestored st (set_pivot_to_cursor_run kc st) [] ∧
      (set_pivot_to_cursor_run kc st).active = st.active) := by
  have hdc : (deselectAll st.objects).map Obj.core = st.objects.map Obj.core :=
    map_core_of_pointwise deselUpd_core st.objects
  have hdid : (deselectAll st.objects).map Obj.id = st.objects.map Obj.id :=
    map_id_of_map_core hdc
  have hall1 : ∀ x ∈ deselectAll st.objects, x.select = false := by
    intro x hx
    obtain ⟨y, -, rfl⟩ := List.mem_map.mp hx
    rfl
  have hnd1 : ((deselectAll st.objects).map Obj.id).Nodup := by
    rw [hdid]
    exact hnd
  constructor
  · by_cases hids : objIds = []
    · have hrun : set_pivot_to_base_run objIds ir ug k st = st := by
        unfold set_pivot_to_base_run
        rw [if_pos hids]
      rw [hrun]
      exact ⟨stateRestored_refl st _, fun _ => rfl⟩
    · have hobj : (set_pivot_to_base_run objIds ir ug k st).objects =
          restoreSel (((objIds.take k).foldl (pivotBaseStep ir ug)
              { st with objects := deselectAll st.objects }).objects)
            (st.objects.map (fun o => (o.id, o.select))) := by
        simp only [set_pivot_to_base_run, if_neg hids]
      have hloc : (set_pivot_to_base_run objIds ir ug k st).cursorLoc = st.cursorLoc := by
        simp only [set_pivot_to_base_run, if_neg hids]
      have hrot : (set_pivot_to_base_run objIds ir ug k st).cursorRot = st.cursorRot := by
        simp only [set_pivot_to_base_run, if_neg hids]
      have hact : (set_pivot_to_base_run objIds ir ug k st).active =
          if st.active ≠ none then st.active
          else ((objIds.take k).foldl (pivotBaseStep ir ug)
              { st with objects := deselectAll st.objects }).active := by
        simp only [set_pivot_to_base_run, if_neg hids]
      have hcfold : (((objIds.take k).foldl (pivotBaseStep ir ug)
          { st with objects := deselectAll st.objects }).objects).map Obj.core =
          st.objects.map Obj.core :=
        (foldPivotBase_core ir ug (objIds.take k) _).trans hdc
      refine ⟨⟨hloc, hrot, ?_, ?_, ?_⟩, ?_⟩
      · rw [hobj]
        exact (map_core_of_pointwise (restUpd_core _) _).trans hcfold
      · rw [hobj]
        exact restoreSel_select st.objects _ (map_id_of_map_core hcfold) hnd
      · intro n o o' ho ho' hcond
        rw [hobj] at ho'
        unfold restoreSel at ho'
        rw [List.getElem?_map] at ho'
        cases h2 : (((objIds.take k).foldl (pivotBaseStep ir ug)
            { st with objects := deselectAll st.objects }).objects)[n]? with
        | none =>
          rw [h2] at ho'
          simp at ho'
        | some o₂ =>
          rw [h2] at ho'
          simp only [Option.map_some', Option.some.injEq] at ho'
          rw [← ho', restUpd_origin]
          have ho₀ : ({ st with objects := deselectAll st.objects } : Ctx).objects[n]? =
              some (deselUpd o) := by
            show (deselectAll st.objects)[n]? = _
            unfold deselectAll
            rw [List.getElem?_map, ho]
            rfl
          have horg : o₂.origin = (deselUpd o).origin := by
            refine foldPivotBase_origin ir ug (objIds.take k)
              { st with objects := deselectAll st.objects } hall1 hnd1 n
              (deselUpd o) o₂ ho₀ h2 ?_
            rcases hcond with hc | hc
            · exact Or.inl hc
            · exact Or.inr hc
          rw [horg]
          rfl
      · intro h0
        rw [hact, if_pos h0]
  · by_cases hsel : selectedObjects st = []
    · have hrun : set_pivot_to_cursor_run kc st = st := by
        unfold set_pivot_to_cursor_run
        rw [if_pos hsel]
      rw [hrun]
      exact ⟨stateRestored_refl st _, rfl⟩
    · have hloop := selectedObjects_deselect st
      have hobj : (set_pivot_to_cursor_run kc st).objects =
          restoreSel (deselectAll st.objects)
            (st.objects.map (fun o => (o.id, o.select))) := by
        simp only [set_pivot_to_cursor_run, if_neg hsel, hloop, List.map_nil,
          List.take_nil, List.foldl_nil]
      have hloc : (set_pivot_to_cursor_run kc st).cursorLoc = st.cursorLoc := by
        simp only [set_pivot_to_cursor_run, if_neg hsel]
      have hrot : (set_pivot_to_cursor_run kc st).cursorRot = st.cursorRot := by
        simp only [set_pivot_to_cursor_run, if_neg hsel]
      have hact : (set_pivot_to_cursor_run kc st).active = st.active := by
        simp only [set_pivot_to_cursor_run, if_neg hsel, hloop, List.map_nil,
          List.take_nil, List.foldl_nil, ite_self]
      refine ⟨⟨hloc, hrot, ?_, ?_, ?_⟩, hact⟩
      · rw [hobj]
        exact (map_core_of_pointwise (restUpd_core _) _).trans hdc
      · rw [hobj]
        exact restoreSel_select st.objects _ hdid hnd
      · intro n o o' ho ho' hcond
        rw [hobj] at ho'
        unfold restoreSel deselectAll at ho'
        rw [List.getElem?_map, List.getElem?_map, ho] at ho'
        simp only [Option.map_some', Option.some.injEq] at ho'
        rw [← ho', restUpd_origin]
        rfl

/-- C8 counterexample: when no object is active before the call,
`set_pivot_to_base` does not restore the active object — the guard
`if active_obj:` in its `finally` block skips the restore, so the last
processed mesh object stays active. -/
theorem C8_counterexample :
    sampleCtxNoActive.active = none ∧
    (set_pivot_to_base_run [0] false false 1 sampleCtxNoActive).active = some 0 := by
  constructor
  · rfl
  · rfl

/-- Witness for C8 (amended) at the sample scene, which has an active
object and duplicate-free ids. -/
theorem C8_pivot_state_restored_witness :
    ((sampleCtx.objects.map Obj.id).Nodup ∧ sampleCtx.active ≠ none) ∧
    ((StateRestored sampleCtx (set_pivot_to_base_run [0] false false 5 sampleCtx)
        ([0].take 5) ∧
      (sampleCtx.active ≠ none →
        (set_pivot_to_base_run [0] false false 5 sampleCtx).active = sampleCtx.active)) ∧
     (StateRestored sampleCtx (set_pivot_to_cursor_run 5 sampleCtx) [] ∧
      (set_pivot_to_cursor_run 5 sampleCtx).active = sampleCtx.active)) :=
  ⟨⟨by decide, by decide⟩,
   C8_pivot_state_restored sampleCtx [0] false false 5 5 (by decide)⟩

end Pivotier
